import Mathlib

/-!
Shallow embedding of `examples/spritesheet_generator/make_sprites_flip_animations.py`
from the Adafruit_DisplayIO_FlipClock repository.

Pixel-coordinate geometry (Python floats) is modelled over `ℚ` (the script only
ever divides by the nonzero constants 90 and the column width, so exact rational
arithmetic is the intended real-number semantics of the float code).  Image
objects are modelled by the data the script actually computes from them:
their integer pixel dimensions, and for animation frames also the quadrilateral
pair handed to the coefficient solver.  `numpy.linalg.inv` is modelled by the
mathematical matrix inverse over `ℚ` (written executably as `det⁻¹ • adjugate`).
-/

namespace FlipClock

open scoped Matrix

/-- Module-level constant `TILE_WIDTH = 48` (line 18 of the script). -/
def TILE_WIDTH : ℕ := 48

/-- Module-level constant `TILE_HEIGHT = 100` (line 18 of the script). -/
def TILE_HEIGHT : ℕ := 100

/-- Module-level constant `PADDING_SIZE = 8` (line 21 of the script),
as the rational it is used as inside the geometry formulas. -/
def PADDING_SIZE : ℚ := 8

/-- An ordered quadrilateral: exactly 4 (x, y) points. -/
def Quad : Type := Fin 4 → ℚ × ℚ

/-- Row `[p1.x, p1.y, 1, 0, 0, 0, -p2.x*p1.x, -p2.x*p1.y]` appended by the loop in
`find_coeffs` (line 37). -/
def coeff_row_x (p1 p2 : ℚ × ℚ) : Fin 8 → ℚ :=
  ![p1.1, p1.2, 1, 0, 0, 0, -p2.1 * p1.1, -p2.1 * p1.2]

/-- Row `[0, 0, 0, p1.x, p1.y, 1, -p2.y*p1.x, -p2.y*p1.y]` appended by the loop in
`find_coeffs` (line 38). -/
def coeff_row_y (p1 p2 : ℚ × ℚ) : Fin 8 → ℚ :=
  ![0, 0, 0, p1.1, p1.2, 1, -p2.2 * p1.1, -p2.2 * p1.2]

/-- The 8×8 matrix `A` built by `find_coeffs` (lines 35-40): two rows per
corresponding point pair, in order. -/
def coeff_matrix (pa pb : Quad) : Matrix (Fin 8) (Fin 8) ℚ :=
  Matrix.of
    ![coeff_row_x (pa 0) (pb 0), coeff_row_y (pa 0) (pb 0),
      coeff_row_x (pa 1) (pb 1), coeff_row_y (pa 1) (pb 1),
      coeff_row_x (pa 2) (pb 2), coeff_row_y (pa 2) (pb 2),
      coeff_row_x (pa 3) (pb 3), coeff_row_y (pa 3) (pb 3)]

/-- The vector `B = numpy.array(pb).reshape(8)` of `find_coeffs` (line 41):
the destination points flattened row-major. -/
def coeff_target (pb : Quad) : Fin 8 → ℚ :=
  ![(pb 0).1, (pb 0).2, (pb 1).1, (pb 1).2, (pb 2).1, (pb 2).2, (pb 3).1, (pb 3).2]

/-- Model of `numpy.linalg.inv` over `ℚ`: the matrix inverse, written with the
field inverse of the determinant so that the definition is executable. -/
def linalg_inv (M : Matrix (Fin 8) (Fin 8) ℚ) : Matrix (Fin 8) (Fin 8) ℚ :=
  M.det⁻¹ • M.adjugate

/-- Function `find_coeffs` (lines 26-44): `res = inv(A.T * A) * A.T ⬝ B`, returned
reshaped to 8 entries. -/
def find_coeffs (pa pb : Quad) : Fin 8 → ℚ :=
  (linalg_inv ((coeff_matrix pa pb)ᵀ * coeff_matrix pa pb) * (coeff_matrix pa pb)ᵀ)
    *ᵥ coeff_target pb

/-- Denominator `c6*x + c7*y + 1` of the projective map parameterised by a
coefficient vector, at a point (the spec's forward formula, section 4.1). -/
def proj_denom (c : Fin 8 → ℚ) (p : ℚ × ℚ) : ℚ := c 6 * p.1 + c 7 * p.2 + 1

/-- Forward projective formula `x' = (c0*x + c1*y + c2) / (c6*x + c7*y + 1)`
from the spec (section 4.1). -/
def proj_map_x (c : Fin 8 → ℚ) (p : ℚ × ℚ) : ℚ :=
  (c 0 * p.1 + c 1 * p.2 + c 2) / proj_denom c p

/-- Forward projective formula `y' = (c3*x + c4*y + c5) / (c6*x + c7*y + 1)`
from the spec (section 4.1). -/
def proj_map_y (c : Fin 8 → ℚ) (p : ℚ × ℚ) : ℚ :=
  (c 3 * p.1 + c 4 * p.2 + c 5) / proj_denom c p

/-- Displacement `x_val = (angle * PADDING_SIZE) / 90` of
`find_top_half_coeffs_inputs_for_angle` (line 57). -/
def top_half_x_val (angle : ℚ) : ℚ := angle * PADDING_SIZE / 90

/-- Displacement `x_val = ((90 - angle) * PADDING_SIZE) / 90` of
`find_bottom_half_coeffs_inputs_for_angle` (line 77). -/
def bottom_half_x_val (angle : ℚ) : ℚ := (90 - angle) * PADDING_SIZE / 90

/-- Displacement `y_val = min((angle * img.height) / 90, img.height - 1)`, the identical
y-displacement formula of both planners (lines 58 and 78). -/
def half_y_val (angle h : ℚ) : ℚ := min (angle * h / 90) (h - 1)

/-- Function `find_top_half_coeffs_inputs_for_angle` (lines 47-67): the
(first_list, second_list) quadrilateral pair for an image of width `w`,
height `h` at the given angle. -/
def find_top_half_coeffs_inputs_for_angle (w h angle : ℚ) : Quad × Quad :=
  (![(-(top_half_x_val angle + 1), half_y_val angle h),
     (w + top_half_x_val angle, half_y_val angle h),
     (w, h),
     (0, h)],
   ![(0, 0), (w, 0), (w, h), (0, h)])

/-- Function `find_bottom_half_coeffs_inputs_for_angle` (lines 70-87). -/
def find_bottom_half_coeffs_inputs_for_angle (w h angle : ℚ) : Quad × Quad :=
  (![(0, 0),
     (w, 0),
     (w + bottom_half_x_val angle, half_y_val angle h),
     (-(bottom_half_x_val angle + 1), half_y_val angle h)],
   ![(0, 0), (w, 0), (w, h), (0, h)])

/-- An image modelled by its pixel dimensions. -/
structure Tile where
  width : ℕ
  height : ℕ
deriving DecidableEq

/-- Function `make_sprite` (lines 114-156) returns `inner_img`, an image of size
`inner_image_size = (TILE_WIDTH, TILE_HEIGHT)` (line 129). -/
def make_sprite : Tile := ⟨TILE_WIDTH, TILE_HEIGHT⟩

/-- Function `get_top_half` (lines 90-99): `img.crop((0, 0, img.width, img.height // 2))`. -/
def get_top_half (t : Tile) : Tile := ⟨t.width, t.height / 2⟩

/-- Function `get_bottom_half` (lines 102-111):
`img.crop((0, img.height // 2, img.width, img.height))`. -/
def get_bottom_half (t : Tile) : Tile := ⟨t.width, t.height - t.height / 2⟩

/-- Python `range(0, stop, step)` for `step ≥ 1`: the multiples of `step`
strictly below `stop`, in increasing order. -/
def python_range (stop step : ℕ) : List ℕ :=
  (List.range ((stop + step - 1) / step)).map (· * step)

/-- Step `angle_count_by = (90 // count) + 1` of `make_angles_sprite_set` (line 173). -/
def angle_count_by (count : ℕ) : ℕ := 90 / count + 1

/-- The raw `_angle` values iterated by `make_angles_sprite_set` (line 174):
`range(0, 91, angle_count_by)`.  Faithful for `count ≥ 1` (Python raises
`ZeroDivisionError` for `count = 0`). -/
def gen_raw_angles (count : ℕ) : List ℕ := python_range 91 (angle_count_by count)

/-- One animation frame, modelled by the data the loop body of
`make_angles_sprite_set` computes: the output image size
`(img.width, img.height)` handed to `img.transform` (line 186), and the
quadrilateral pair handed to `find_coeffs` (lines 177-183). -/
structure Frame where
  tile : Tile
  src : Quad
  dst : Quad

/-- Function `make_angles_sprite_set` (lines 159-196): one frame per raw angle in
`range(0, 91, angle_count_by)`, with geometry computed at `_angle + 1`. -/
def make_angles_sprite_set (t : Tile) (count : ℕ) (bottom_skew : Bool) : List Frame :=
  (gen_raw_angles count).map (fun (a : ℕ) =>
    let pair :=
      if bottom_skew then
        find_bottom_half_coeffs_inputs_for_angle (t.width : ℚ) (t.height : ℚ) ((a : ℚ) + 1)
      else
        find_top_half_coeffs_inputs_for_angle (t.width : ℚ) (t.height : ℚ) ((a : ℚ) + 1)
    ⟨⟨t.width, t.height⟩, pair.1, pair.2⟩)

/-- A packed sprite sheet: its pixel dimensions and the paste coordinates of
each input tile, in order. -/
structure Sheet where
  width : ℕ
  height : ℕ
  placements : List (ℕ × ℕ)
deriving DecidableEq

/-- The paste coordinates produced by the loop of `pack_images_to_sheet`
(line 248): `(((i % width) * TILE_WIDTH), ((i // width) * image.height))`,
starting from index `i`. -/
def sheet_coords (width : ℕ) : ℕ → List Tile → List (ℕ × ℕ)
  | _, [] => []
  | i, img :: rest =>
      ((i % width) * TILE_WIDTH, (i / width) * img.height) :: sheet_coords width (i + 1) rest

/-- Function `pack_images_to_sheet` (lines 228-253).  `row_count = math.ceil(len/width)`
is the exact ceiling division; the sheet size comes from `images[0]` (lines
240-244) while the x paste offset uses the constant `TILE_WIDTH` (line 248).
Returns `none` where Python raises: `width = 0` (`ZeroDivisionError` in the
`row_count` division) or an empty list (`IndexError` at `images[0]`). -/
def pack_images_to_sheet (images : List Tile) (width : ℕ) : Option Sheet :=
  if width = 0 then none
  else
    match images with
    | [] => none
    | img0 :: _ =>
        let row_count := (images.length + width - 1) / width
        some ⟨img0.width * width, img0.height * row_count, sheet_coords width 0 images⟩

/-- Function `make_animations_sheets` (lines 256-289), restricted to the data the sheets
are made of: for each of the 10 digits, 10-frame top and bottom angle sets of
the sprite halves, packed 10 to a row.  Returns (bottom sheet, top sheet). -/
def make_animations_sheets : Option Sheet × Option Sheet :=
  let bottoms := (List.range 10).flatMap (fun _ =>
    (make_angles_sprite_set (get_bottom_half make_sprite) 10 true).map Frame.tile)
  let tops := (List.range 10).flatMap (fun _ =>
    (make_angles_sprite_set (get_top_half make_sprite) 10 false).map Frame.tile)
  (pack_images_to_sheet bottoms 10, pack_images_to_sheet tops 10)

/-- Three points are collinear: the cross product of the two edge vectors
vanishes.  (This condition is invariant under permuting the three points.) -/
def collinear3 (p q r : ℚ × ℚ) : Prop :=
  (q.1 - p.1) * (r.2 - p.2) - (q.2 - p.2) * (r.1 - p.1) = 0

instance (p q r : ℚ × ℚ) : Decidable (collinear3 p q r) := by
  unfold collinear3; infer_instance

/-- Twice the signed (shoelace) area of a quadrilateral, in listed order. -/
def quad_shoelace (q : Quad) : ℚ :=
  ((q 0).1 * (q 1).2 - (q 1).1 * (q 0).2) + ((q 1).1 * (q 2).2 - (q 2).1 * (q 1).2)
    + ((q 2).1 * (q 3).2 - (q 3).1 * (q 2).2) + ((q 3).1 * (q 0).2 - (q 0).1 * (q 3).2)

/-- Absolute area of a quadrilateral. -/
def quad_area (q : Quad) : ℚ := |quad_shoelace q| / 2

/-- No three of the four corners are collinear (all four unordered triples,
each in index order; `collinear3` is permutation-invariant). -/
def no_three_collinear (q : Quad) : Prop :=
  ¬collinear3 (q 0) (q 1) (q 2) ∧ ¬collinear3 (q 0) (q 1) (q 3) ∧
    ¬collinear3 (q 0) (q 2) (q 3) ∧ ¬collinear3 (q 1) (q 2) (q 3)

instance (q : Quad) : Decidable (no_three_collinear q) := by
  unfold no_three_collinear; infer_instance

/-- Concrete source quadrilateral used in the analysis of `find_coeffs`:
no three of its corners are collinear. -/
def paCex : Quad := ![(0, 0), (1, 0), (2, 1), (0, 1)]

/-- Concrete destination quadrilateral paired with `paCex`: the resulting
linear system is nonsingular, yet the solved projective map has a vanishing
denominator at the second source point. -/
def pbCex : Quad := ![(-1, 0), (5, 7), (-1, -1), (-1, 1)]

/-- Explicit inverse of `coeff_matrix paCex pbCex` (checked by computation). -/
def vCex : Matrix (Fin 8) (Fin 8) ℚ :=
  Matrix.of
    ![![-1/6, 0, 1/6, 0, 5/12, 0, -5/12, 0],
      ![1/3, -1, -4/3, 1, 2/3, -1/2, 1/3, 1/2],
      ![1, 0, 0, 0, 0, 0, 0, 0],
      ![7/6, -1, -7/6, 1, 7/12, 0, -7/12, 0],
      ![-4/3, 0, 4/3, -1, -2/3, 1/2, 2/3, 1/2],
      ![0, 1, 0, 0, 0, 0, 0, 0],
      ![1/6, 0, -1/6, 0, 1/12, 0, -1/12, 0],
      ![-4/3, 1, 4/3, -1, -2/3, 1/2, 2/3, -1/2]]

/-- Explicit inverse of `(coeff_matrix paCex pbCex)ᵀ * coeff_matrix paCex pbCex`
(checked by computation). -/
def wCex : Matrix (Fin 8) (Fin 8) ℚ :=
  Matrix.of
    ![![29/72, -5/36, -1/6, 7/72, -1/9, 0, 1/72, -1/9],
      ![-5/36, 89/18, 1/3, 149/36, -31/9, -1, 11/36, -89/18],
      ![-1/6, 1/3, 1, 7/6, -4/3, 0, 1/6, -4/3],
      ![7/72, 149/36, 7/6, 389/72, -44/9, -1, 35/72, -53/9],
      ![-1/9, -31/9, -4/3, -44/9, 107/18, 0, -5/9, 49/9],
      ![0, -1, 0, -1, 0, 1, 0, 1],
      ![1/72, 11/36, 1/6, 35/72, -5/9, 0, 5/72, -5/9],
      ![-1/9, -89/18, -4/3, -53/9, 49/9, 1, -5/9, 125/18]]

/-- The unit square, used as a well-posed concrete quadrilateral pair
(mapped to itself) for `find_coeffs`. -/
def paUnit : Quad := ![(0, 0), (1, 0), (1, 1), (0, 1)]

/-- Explicit inverse of `coeff_matrix paUnit paUnit` (checked by computation). -/
def vUnit : Matrix (Fin 8) (Fin 8) ℚ :=
  Matrix.of
    ![![-1, -1, 1, 1, 0, -1, 0, 1],
      ![-1, 0, 0, 0, 0, 0, 1, 0],
      ![1, 0, 0, 0, 0, 0, 0, 0],
      ![0, -1, 0, 1, 0, 0, 0, 0],
      ![-1, -1, 1, 0, -1, 0, 1, 1],
      ![0, 1, 0, 0, 0, 0, 0, 0],
      ![0, -1, 0, 1, 0, -1, 0, 1],
      ![-1, 0, 1, 0, -1, 0, 1, 0]]

/-- Explicit inverse of `(coeff_matrix paUnit paUnit)ᵀ * coeff_matrix paUnit paUnit`
(checked by computation). -/
def wUnit : Matrix (Fin 8) (Fin 8) ℚ :=
  Matrix.of
    ![![6, 1, -1, 2, 4, -1, 4, 2],
      ![1, 2, -1, 0, 2, 0, 0, 2],
      ![-1, -1, 1, 0, -1, 0, 0, -1],
      ![2, 0, 0, 2, 1, -1, 2, 0],
      ![4, 2, -1, 1, 6, -1, 2, 4],
      ![-1, 0, 0, -1, -1, 1, -1, 0],
      ![4, 0, 0, 2, 2, -1, 4, 0],
      ![2, 2, -1, 0, 4, 0, 0, 4]]

/-! ### Helper lemmas -/

theorem vec8_apply_five {α : Type*} (a₀ a₁ a₂ a₃ a₄ a₅ a₆ a₇ : α) :
    (![a₀, a₁, a₂, a₃, a₄, a₅, a₆, a₇]) (5 : Fin 8) = a₅ := rfl

theorem vec8_apply_six {α : Type*} (a₀ a₁ a₂ a₃ a₄ a₅ a₆ a₇ : α) :
    (![a₀, a₁, a₂, a₃, a₄, a₅, a₆, a₇]) (6 : Fin 8) = a₆ := rfl

theorem vec8_apply_seven {α : Type*} (a₀ a₁ a₂ a₃ a₄ a₅ a₆ a₇ : α) :
    (![a₀, a₁, a₂, a₃, a₄, a₅, a₆, a₇]) (7 : Fin 8) = a₇ := rfl

theorem gen_raw_angles_length (N : ℕ) :
    (gen_raw_angles N).length = 90 / (90 / N + 1) + 1 := by
  have hs : 0 < 90 / N + 1 := Nat.succ_pos _
  have h91 : 91 + (90 / N + 1) - 1 = 90 + (90 / N + 1) := by omega
  simp only [gen_raw_angles, python_range, angle_count_by, List.length_map,
    List.length_range]
  rw [h91, Nat.add_div_right 90 hs]

/-! ### C2: frame count of `make_angles_sprite_set` -/

/-- C2: for every frame count `N ≥ 1`, `make_angles_sprite_set` produces exactly
`90 / step + 1` frames where `step = 90 / N + 1` (floor divisions); in
particular 10 frames for `N = 10`, and for `N = 1` (step 91) exactly one frame,
whose geometry is computed at angle `0 + 1 = 1`. -/
theorem make_angles_sprite_set_frame_count :
    (∀ (t : Tile) (b : Bool) (N : ℕ), 1 ≤ N →
        (make_angles_sprite_set t N b).length = 90 / (90 / N + 1) + 1) ∧
      (∀ (t : Tile) (b : Bool), (make_angles_sprite_set t 10 b).length = 10) ∧
      (gen_raw_angles 1).map (· + 1) = [1] := by
  refine ⟨?_, ?_, by decide⟩
  · intro t b N _hN
    unfold make_angles_sprite_set
    rw [List.length_map]
    exact gen_raw_angles_length N
  · intro t b
    unfold make_angles_sprite_set
    rw [List.length_map]
    decide

/-- Witness for C2 at frame count 7: step is 13 and 7 frames come out. -/
theorem make_angles_sprite_set_frame_count_witness :
    (make_angles_sprite_set ⟨48, 50⟩ 7 false).length = 90 / (90 / 7 + 1) + 1 :=
  make_angles_sprite_set_frame_count.1 ⟨48, 50⟩ false 7 (by norm_num)

/-! ### C3: the two x-displacements are complementary -/

/-- C3: for every angle, the top-half x-displacement plus the bottom-half
x-displacement equals `PADDING_SIZE` exactly. -/
theorem x_val_complementary (a : ℚ) :
    top_half_x_val a + bottom_half_x_val a = PADDING_SIZE := by
  unfold top_half_x_val bottom_half_x_val PADDING_SIZE
  ring

/-! ### C7: boundary values of the x-displacements -/

/-- C7 (amended): at raw angle 0 the TOP-half planner's x-displacement is zero
and the BOTTOM-half planner's is maximal (`PADDING_SIZE`); at angle 90 the
relationship is reversed.  (The claim stated it the other way round.) -/
theorem x_val_boundary_values :
    top_half_x_val 0 = 0 ∧ bottom_half_x_val 0 = PADDING_SIZE ∧
      top_half_x_val 90 = PADDING_SIZE ∧ bottom_half_x_val 90 = 0 := by
  refine ⟨?_, ?_, ?_, ?_⟩ <;> norm_num [top_half_x_val, bottom_half_x_val, PADDING_SIZE]

/-- Counterexample to C7 as stated: at angle 0 the bottom-half x-displacement
is `PADDING_SIZE = 8`, not zero, and the top-half one is 0, not maximal. -/
theorem x_val_zero_angle_counterexample :
    bottom_half_x_val 0 = PADDING_SIZE ∧ bottom_half_x_val 0 ≠ 0 ∧
      top_half_x_val 0 = 0 ∧ top_half_x_val 0 ≠ PADDING_SIZE := by
  refine ⟨?_, ?_, ?_, ?_⟩ <;> norm_num [top_half_x_val, bottom_half_x_val, PADDING_SIZE]

/-! ### C8: the clamped y-displacement -/

/-- C8: the y-displacement shared by both planners is monotone in the angle
(for a half-image of nonnegative height), never exceeds `h - 1`, reaches
`h - 1` exactly at the offset angle 90 (raw angle 89 plus the +1 offset), and
is the y-coordinate of the displaced corners of both planners' source quads. -/
theorem half_y_val_clamp :
    (∀ (h a₁ a₂ : ℚ), 0 ≤ h → a₁ ≤ a₂ → half_y_val a₁ h ≤ half_y_val a₂ h) ∧
      (∀ a h : ℚ, half_y_val a h ≤ h - 1) ∧
      (∀ h : ℚ, half_y_val 90 h = h - 1) ∧
      (∀ w h a : ℚ,
        ((find_top_half_coeffs_inputs_for_angle w h a).1 0).2 = half_y_val a h ∧
          ((find_bottom_half_coeffs_inputs_for_angle w h a).1 2).2 = half_y_val a h) := by
  refine ⟨?_, ?_, ?_, ?_⟩
  · intro h a₁ a₂ hh ha
    unfold half_y_val
    exact min_le_min (by gcongr) le_rfl
  · intro a h
    exact min_le_right _ _
  · intro h
    unfold half_y_val
    rw [show (90 : ℚ) * h / 90 = h by ring]
    exact min_eq_right (by linarith)
  · intro w h a
    constructor <;> rfl

/-- Witness for C8: concrete monotonicity instance at height 50. -/
theorem half_y_val_clamp_witness : half_y_val 10 50 ≤ half_y_val 20 50 :=
  half_y_val_clamp.1 50 10 20 (by norm_num) (by norm_num)

/-! ### C10: the packer's non-empty precondition -/

/-- C10: `pack_images_to_sheet` fails on the empty tile list (Python indexes
`images[0]`, raising `IndexError`, modelled as `none`) and succeeds on every
non-empty list for a positive column count. -/
theorem pack_images_to_sheet_empty_precondition :
    (∀ w, pack_images_to_sheet [] w = none) ∧
      (∀ (images : List Tile) (w : ℕ), 1 ≤ w → images ≠ [] →
        (pack_images_to_sheet images w).isSome = true) := by
  constructor
  · intro w
    unfold pack_images_to_sheet
    split <;> rfl
  · intro images w hw hne
    obtain ⟨img0, rest, rfl⟩ := List.exists_cons_of_ne_nil hne
    unfold pack_images_to_sheet
    rw [if_neg (by omega)]
    rfl

/-- Witness for C10: a singleton list packs successfully. -/
theorem pack_images_to_sheet_empty_precondition_witness :
    (pack_images_to_sheet [⟨48, 100⟩] 3).isSome = true :=
  pack_images_to_sheet_empty_precondition.2 [⟨48, 100⟩] 3 (by norm_num) (by simp)

/-! ### C5: packing 11 tiles of 48×100 at width 3 -/

/-- C5 (amended): 11 tiles of 48×100 packed at width 3 yield a 48*3 × 100*4
sheet (row_count 4), and the tile at index 10 is pasted at offset (48, 300)
(the claim said (288, 300)). -/
theorem pack_eleven_tiles :
    pack_images_to_sheet (List.replicate 11 (⟨48, 100⟩ : Tile)) 3 =
      some ⟨48 * 3, 100 * 4,
        [(0, 0), (48, 0), (96, 0), (0, 100), (48, 100), (96, 100),
         (0, 200), (48, 200), (96, 200), (0, 300), (48, 300)]⟩ := by
  rfl

/-- Counterexample to C5 as stated: the tile at index 10 is pasted at
(48, 300) = ((10 % 3) * 48, (10 // 3) * 100), not at (288, 300). -/
theorem pack_eleven_tiles_counterexample :
    (pack_images_to_sheet (List.replicate 11 (⟨48, 100⟩ : Tile)) 3).map
        (fun s => s.placements.getD 10 (0, 0)) = some (48, 300) ∧
      ((48, 300) : ℕ × ℕ) ≠ (288, 300) := by
  exact ⟨rfl, by decide⟩

/-! ### C4: dimensions of the two animation sheets -/

/-- C4 (amended): with the default pipeline the top and bottom animation
sheets are each 480 × 500 pixels: the packed tiles are the half-height
(48 × 50) transformed images, so the sheet height is 50 * ceil(100/10) = 500,
not 1000. -/
theorem animation_sheets_dimensions :
    (make_animations_sheets.1).map (fun s => (s.width, s.height)) =
        some (48 * 10, 50 * 10) ∧
      (make_animations_sheets.2).map (fun s => (s.width, s.height)) =
        some (48 * 10, 50 * 10) := by
  exact ⟨rfl, rfl⟩

/-- Counterexample to C4 as stated: the top animation sheet is 480 × 500,
not 480 × 1000. -/
theorem animation_sheets_dimensions_counterexample :
    (make_animations_sheets.2).map (fun s => (s.width, s.height)) = some (480, 500) ∧
      ((480, 500) : ℕ × ℕ) ≠ (480, 1000) := by
  exact ⟨rfl, by decide⟩

/-! ### C6: the general packing layout law -/

theorem sheet_coords_getElem (w th : ℕ) :
    ∀ (l : List Tile) (j i : ℕ), i < l.length → (∀ t ∈ l, t.height = th) →
      (sheet_coords w j l)[i]? = some (((j + i) % w) * TILE_WIDTH, ((j + i) / w) * th) := by
  intro l
  induction l with
  | nil => intro j i hi _; simp at hi
  | cons hd tl ih =>
    intro j i hi hh
    cases i with
    | zero =>
        simp [sheet_coords, hh hd (List.mem_cons_self hd tl)]
    | succ i' =>
        have h1 := ih (j + 1) i' (by simpa using hi)
          (fun t ht => hh t (List.mem_cons_of_mem hd ht))
        have hidx : (j + 1) + i' = j + (i' + 1) := by omega
        rw [hidx] at h1
        simpa [sheet_coords] using h1

/-- C6 (amended): for a non-empty list of equal-size tiles and a column count
`width ≥ 1`, the sheet has size `(tile_width * width, tile_height * row_count)`
with `row_count` the ceiling of `count / width`, and tile `i` is pasted at
`((i % width) * TILE_WIDTH, (i // width) * tile_height)` — the x stride is the
global constant `TILE_WIDTH = 48`, not the tiles' own width as the claim
stated (they coincide only for 48-pixel-wide tiles). -/
theorem pack_images_to_sheet_layout (tw th : ℕ) (images : List Tile) (w : ℕ)
    (hw : 1 ≤ w) (hne : images ≠ []) (hsz : ∀ t ∈ images, t = ⟨tw, th⟩) :
    (pack_images_to_sheet images w).map Sheet.width = some (tw * w) ∧
      (pack_images_to_sheet images w).map Sheet.height =
        some (th * ((images.length + w - 1) / w)) ∧
      ∀ i, i < images.length →
        (pack_images_to_sheet images w).map (fun s => s.placements[i]?) =
          some (some ((i % w) * TILE_WIDTH, (i / w) * th)) := by
  obtain ⟨img0, rest, rfl⟩ := List.exists_cons_of_ne_nil hne
  have h0 : img0 = (⟨tw, th⟩ : Tile) := hsz img0 (List.mem_cons_self _ _)
  unfold pack_images_to_sheet
  rw [if_neg (by omega)]
  refine ⟨by simp [h0], by simp [h0], ?_⟩
  intro i hi
  have h1 := sheet_coords_getElem w th (img0 :: rest) 0 i hi
    (fun t ht => by rw [hsz t ht])
  simpa using h1

/-- Witness for C6 at three 24×50 tiles in 2 columns. -/
theorem pack_images_to_sheet_layout_witness :
    (pack_images_to_sheet (List.replicate 3 (⟨24, 50⟩ : Tile)) 2).map Sheet.width =
        some (24 * 2) ∧
      (pack_images_to_sheet (List.replicate 3 (⟨24, 50⟩ : Tile)) 2).map
          (fun s => s.placements[2]?) =
        some (some ((2 % 2) * TILE_WIDTH, (2 / 2) * 50)) := by
  obtain ⟨h1, -, h3⟩ := pack_images_to_sheet_layout 24 50 (List.replicate 3 ⟨24, 50⟩) 2
    (by norm_num) (by simp) (fun t ht => List.eq_of_mem_replicate ht)
  exact ⟨h1, h3 2 (by simp)⟩

/-- Counterexample to C6 as stated: packing two 24×50 tiles at width 2 pastes
the tile at index 1 at x-offset 48 (`TILE_WIDTH`), not at
`(1 % 2) * 24 = 24` as the claim's tile-width-based formula requires. -/
theorem pack_images_to_sheet_layout_counterexample :
    (pack_images_to_sheet [(⟨24, 50⟩ : Tile), ⟨24, 50⟩] 2).map
        (fun s => s.placements[1]?) = some (some (48, 0)) ∧
      ((48, 0) : ℕ × ℕ) ≠ ((1 % 2) * 24, (1 / 2) * 50) := by
  exact ⟨rfl, by decide⟩

/-! ### C9: nondegeneracy of the planner quadrilaterals -/

theorem not_collinear3_first_pair (u v e : ℚ) {c d : ℚ} (huv : u ≠ v) (hcd : c ≠ d) :
    ¬collinear3 (u, c) (v, c) (e, d) := by
  unfold collinear3
  intro hc
  have h2 : (v - u) * (d - c) = 0 := by linear_combination hc
  rcases mul_eq_zero.mp h2 with h | h
  · exact huv (by linarith)
  · exact hcd (by linarith)

theorem not_collinear3_last_pair (e u v : ℚ) {c d : ℚ} (huv : u ≠ v) (hcd : c ≠ d) :
    ¬collinear3 (e, d) (u, c) (v, c) := by
  unfold collinear3
  intro hc
  have h2 : (c - d) * (u - v) = 0 := by linear_combination hc
  rcases mul_eq_zero.mp h2 with h | h
  · exact hcd (by linarith)
  · exact huv (by linarith)

/-- C9 (amended): every raw angle the frame generator iterates is at most 90
(so the planner sees angles in [1, 91]); and for every such angle and every
half-image of positive width and height at least 2, both planners' source
quadrilaterals have positive area and no three collinear corners, keeping the
coefficient solver's degenerate-geometry failure out of reach.  (The claim
allowed height 1, for which the bottom quad is degenerate — see the
counterexample.) -/
theorem planner_quads_nondegenerate :
    (∀ N, 1 ≤ N → ∀ a ∈ gen_raw_angles N, a ≤ 90) ∧
      (∀ a w h : ℚ, 1 ≤ a → a ≤ 91 → 0 < w → 2 ≤ h →
        (0 < quad_area (find_top_half_coeffs_inputs_for_angle w h a).1 ∧
            no_three_collinear (find_top_half_coeffs_inputs_for_angle w h a).1) ∧
          (0 < quad_area (find_bottom_half_coeffs_inputs_for_angle w h a).1 ∧
            no_three_collinear (find_bottom_half_coeffs_inputs_for_angle w h a).1)) := by
  constructor
  · intro N _hN a ha
    simp only [gen_raw_angles, python_range, List.mem_map, List.mem_range] at ha
    obtain ⟨k, hk, rfl⟩ := ha
    have hs : 0 < angle_count_by N := Nat.succ_pos _
    rw [show 91 + angle_count_by N - 1 = 90 + angle_count_by N by omega,
      Nat.add_div_right 90 hs] at hk
    have hk' : k ≤ 90 / angle_count_by N := by omega
    calc k * angle_count_by N
        ≤ (90 / angle_count_by N) * angle_count_by N := Nat.mul_le_mul_right _ hk'
      _ ≤ 90 := Nat.div_mul_le_self 90 _
  · intro a w h ha1 ha91 hw hh
    obtain ⟨xt, hxt⟩ : ∃ x, top_half_x_val a = x := ⟨_, rfl⟩
    obtain ⟨xb, hxb⟩ : ∃ x, bottom_half_x_val a = x := ⟨_, rfl⟩
    obtain ⟨y, hy⟩ : ∃ v, half_y_val a h = v := ⟨_, rfl⟩
    have hxt0 : 0 ≤ xt := by
      rw [← hxt]; unfold top_half_x_val PADDING_SIZE
      exact div_nonneg (by nlinarith) (by norm_num)
    have hxb1 : 0 < 2 * xb + 1 := by
      rw [← hxb]; unfold bottom_half_x_val PADDING_SIZE
      rw [show 2 * ((90 - a) * 8 / 90) + 1 = (16 * (90 - a) + 90) / 90 by ring]
      exact div_pos (by linarith) (by norm_num)
    have hyh : y < h := by
      rw [← hy]; unfold half_y_val
      exact lt_of_le_of_lt (min_le_right _ _) (by linarith)
    have hy0 : 0 < y := by
      rw [← hy]; unfold half_y_val
      exact lt_min (div_pos (by nlinarith) (by norm_num)) (by linarith)
    have hqt : (find_top_half_coeffs_inputs_for_angle w h a).1
        = ![(-(xt + 1), y), (w + xt, y), (w, h), (0, h)] := by
      simp only [find_top_half_coeffs_inputs_for_angle, hxt, hy]
    have hqb : (find_bottom_half_coeffs_inputs_for_angle w h a).1
        = ![(0, 0), (w, 0), (w + xb, y), (-(xb + 1), y)] := by
      simp only [find_bottom_half_coeffs_inputs_for_angle, hxb, hy]
    constructor
    · constructor
      · have hS : quad_shoelace (find_top_half_coeffs_inputs_for_angle w h a).1
            = (h - y) * (2 * w + 2 * xt + 1) := by
          rw [hqt]
          simp only [quad_shoelace, Matrix.cons_val_zero, Matrix.cons_val_one,
            Matrix.head_cons, Matrix.cons_val_two, Matrix.tail_cons,
            Matrix.cons_val_three]
          ring
        rw [quad_area, hS, abs_of_pos (mul_pos (by linarith) (by linarith))]
        exact div_pos (mul_pos (by linarith) (by linarith)) two_pos
      · rw [hqt]
        unfold no_three_collinear
        simp only [Matrix.cons_val_zero, Matrix.cons_val_one, Matrix.head_cons,
          Matrix.cons_val_two, Matrix.tail_cons, Matrix.cons_val_three]
        refine ⟨?_, ?_, ?_, ?_⟩
        · exact not_collinear3_first_pair _ _ _ (by intro hq; linarith) (ne_of_lt hyh)
        · exact not_collinear3_first_pair _ _ _ (by intro hq; linarith) (ne_of_lt hyh)
        · exact not_collinear3_last_pair _ _ _ (by intro hq; linarith) (ne_of_gt hyh)
        · exact not_collinear3_last_pair _ _ _ (by intro hq; linarith) (ne_of_gt hyh)
    · constructor
      · have hS : quad_shoelace (find_bottom_half_coeffs_inputs_for_angle w h a).1
            = y * (2 * w + 2 * xb + 1) := by
          rw [hqb]
          simp only [quad_shoelace, Matrix.cons_val_zero, Matrix.cons_val_one,
            Matrix.head_cons, Matrix.cons_val_two, Matrix.tail_cons,
            Matrix.cons_val_three]
          ring
        rw [quad_area, hS, abs_of_pos (mul_pos (by linarith) (by linarith))]
        exact div_pos (mul_pos (by linarith) (by linarith)) two_pos
      · rw [hqb]
        unfold no_three_collinear
        simp only [Matrix.cons_val_zero, Matrix.cons_val_one, Matrix.head_cons,
          Matrix.cons_val_two, Matrix.tail_cons, Matrix.cons_val_three]
        refine ⟨?_, ?_, ?_, ?_⟩
        · exact not_collinear3_first_pair _ _ _ (by intro hq; linarith) (ne_of_lt hy0)
        · exact not_collinear3_first_pair _ _ _ (by intro hq; linarith) (ne_of_lt hy0)
        · exact not_collinear3_last_pair _ _ _ (by intro hq; linarith) (ne_of_gt hy0)
        · exact not_collinear3_last_pair _ _ _ (by intro hq; linarith) (ne_of_gt hy0)

/-- Witness for C9 on the real pipeline half-tile size (48 × 50) at angle 1. -/
theorem planner_quads_nondegenerate_witness :
    0 < quad_area (find_top_half_coeffs_inputs_for_angle 48 50 1).1 ∧
      no_three_collinear (find_bottom_half_coeffs_inputs_for_angle 48 50 1).1 := by
  obtain ⟨-, hgeom⟩ := planner_quads_nondegenerate
  obtain ⟨⟨hta, -⟩, ⟨-, hbc⟩⟩ :=
    hgeom 1 48 50 (by norm_num) (by norm_num) (by norm_num) (by norm_num)
  exact ⟨hta, hbc⟩

/-- Counterexample to C9 as stated: angle 1 is passed by the generator
(raw angle 0 is iterated), yet for a half-image of width 1 and height 1 the
bottom planner's source quadrilateral is flat: zero area, first three corners
collinear. -/
theorem planner_quads_degenerate_counterexample :
    (0 : ℕ) ∈ gen_raw_angles 10 ∧
      quad_area (find_bottom_half_coeffs_inputs_for_angle 1 1 (0 + 1)).1 = 0 ∧
      collinear3 ((find_bottom_half_coeffs_inputs_for_angle 1 1 (0 + 1)).1 0)
        ((find_bottom_half_coeffs_inputs_for_angle 1 1 (0 + 1)).1 1)
        ((find_bottom_half_coeffs_inputs_for_angle 1 1 (0 + 1)).1 2) := by
  refine ⟨by decide, ?_, ?_⟩ <;>
    norm_num [quad_area, quad_shoelace, collinear3,
      find_bottom_half_coeffs_inputs_for_angle, bottom_half_x_val, half_y_val,
      PADDING_SIZE]

/-! ### C1: the coefficient solver's round-trip law -/

theorem linalg_inv_eq_inv (M : Matrix (Fin 8) (Fin 8) ℚ) : linalg_inv M = M⁻¹ := by
  rw [linalg_inv, Matrix.inv_def, Ring.inverse_eq_inv]

theorem find_coeffs_solves (pa pb : Quad) (hA : IsUnit (coeff_matrix pa pb).det) :
    coeff_matrix pa pb *ᵥ find_coeffs pa pb = coeff_target pb := by
  have hAT : IsUnit ((coeff_matrix pa pb)ᵀ).det := by rwa [Matrix.det_transpose]
  rw [find_coeffs, linalg_inv_eq_inv, Matrix.mulVec_mulVec, Matrix.mul_inv_rev,
    Matrix.mul_assoc (coeff_matrix pa pb)⁻¹ ((coeff_matrix pa pb)ᵀ)⁻¹
      ((coeff_matrix pa pb)ᵀ),
    Matrix.nonsing_inv_mul _ hAT, Matrix.mul_one, Matrix.mul_nonsing_inv _ hA,
    Matrix.one_mulVec]

/-- C1 (amended): whenever the 8×8 system built from the quadrilateral pair is
nonsingular AND the solved projective map's denominator does not vanish at any
of the 4 source points (well-posedness), the coefficients returned by
`find_coeffs` map each source point exactly onto the corresponding destination
point under the forward projective formula.  (Nonsingularity alone does not
suffice — see the counterexample, where a denominator vanishes.) -/
theorem find_coeffs_round_trip (pa pb : Quad)
    (hA : IsUnit (coeff_matrix pa pb).det)
    (hden : ∀ i : Fin 4, proj_denom (find_coeffs pa pb) (pa i) ≠ 0) :
    ∀ i : Fin 4,
      proj_map_x (find_coeffs pa pb) (pa i) = (pb i).1 ∧
        proj_map_y (find_coeffs pa pb) (pa i) = (pb i).2 := by
  have key := find_coeffs_solves pa pb hA
  have case0 : proj_map_x (find_coeffs pa pb) (pa 0) = (pb 0).1 ∧
      proj_map_y (find_coeffs pa pb) (pa 0) = (pb 0).2 := by
    have hx := congrFun key 0
    have hy := congrFun key 1
    simp only [Matrix.mulVec, Matrix.dotProduct, Fin.sum_univ_eight, coeff_matrix,
      Matrix.of_apply, Matrix.cons_val_zero, Matrix.cons_val_one, Matrix.head_cons,
      Matrix.cons_val_two, Matrix.tail_cons, Matrix.cons_val_three,
      Matrix.cons_val_four, vec8_apply_five, vec8_apply_six, vec8_apply_seven,
      coeff_row_x, coeff_row_y, coeff_target] at hx hy
    constructor
    · rw [proj_map_x, div_eq_iff (hden 0)]
      unfold proj_denom
      linear_combination hx
    · rw [proj_map_y, div_eq_iff (hden 0)]
      unfold proj_denom
      linear_combination hy
  have case1 : proj_map_x (find_coeffs pa pb) (pa 1) = (pb 1).1 ∧
      proj_map_y (find_coeffs pa pb) (pa 1) = (pb 1).2 := by
    have hx := congrFun key 2
    have hy := congrFun key 3
    simp only [Matrix.mulVec, Matrix.dotProduct, Fin.sum_univ_eight, coeff_matrix,
      Matrix.of_apply, Matrix.cons_val_zero, Matrix.cons_val_one, Matrix.head_cons,
      Matrix.cons_val_two, Matrix.tail_cons, Matrix.cons_val_three,
      Matrix.cons_val_four, vec8_apply_five, vec8_apply_six, vec8_apply_seven,
      coeff_row_x, coeff_row_y, coeff_target] at hx hy
    constructor
    · rw [proj_map_x, div_eq_iff (hden 1)]
      unfold proj_denom
      linear_combination hx
    · rw [proj_map_y, div_eq_iff (hden 1)]
      unfold proj_denom
      linear_combination hy
  have case2 : proj_map_x (find_coeffs pa pb) (pa 2) = (pb 2).1 ∧
      proj_map_y (find_coeffs pa pb) (pa 2) = (pb 2).2 := by
    have hx := congrFun key 4
    have hy := congrFun key 5
    simp only [Matrix.mulVec, Matrix.dotProduct, Fin.sum_univ_eight, coeff_matrix,
      Matrix.of_apply, Matrix.cons_val_zero, Matrix.cons_val_one, Matrix.head_cons,
      Matrix.cons_val_two, Matrix.tail_cons, Matrix.cons_val_three,
      Matrix.cons_val_four, vec8_apply_five, vec8_apply_six, vec8_apply_seven,
      coeff_row_x, coeff_row_y, coeff_target] at hx hy
    constructor
    · rw [proj_map_x, div_eq_iff (hden 2)]
      unfold proj_denom
      linear_combination hx
    · rw [proj_map_y, div_eq_iff (hden 2)]
      unfold proj_denom
      linear_combination hy
  have case3 : proj_map_x (find_coeffs pa pb) (pa 3) = (pb 3).1 ∧
      proj_map_y (find_coeffs pa pb) (pa 3) = (pb 3).2 := by
    have hx := congrFun key 6
    have hy := congrFun key 7
    simp only [Matrix.mulVec, Matrix.dotProduct, Fin.sum_univ_eight, coeff_matrix,
      Matrix.of_apply, Matrix.cons_val_zero, Matrix.cons_val_one, Matrix.head_cons,
      Matrix.cons_val_two, Matrix.tail_cons, Matrix.cons_val_three,
      Matrix.cons_val_four, vec8_apply_five, vec8_apply_six, vec8_apply_seven,
      coeff_row_x, coeff_row_y, coeff_target] at hx hy
    constructor
    · rw [proj_map_x, div_eq_iff (hden 3)]
      unfold proj_denom
      linear_combination hx
    · rw [proj_map_y, div_eq_iff (hden 3)]
      unfold proj_denom
      linear_combination hy
  intro i
  fin_cases i
  · exact case0
  · exact case1
  · exact case2
  · exact case3

theorem vUnit_right_inverse : coeff_matrix paUnit paUnit * vUnit = 1 :=
  Matrix.ext (by with_unfolding_all decide)

theorem wUnit_right_inverse :
    ((coeff_matrix paUnit paUnit)ᵀ * coeff_matrix paUnit paUnit) * wUnit = 1 :=
  Matrix.ext (by with_unfolding_all decide)

theorem find_coeffs_paUnit :
    find_coeffs paUnit paUnit = ![1, 0, 0, 0, 1, 0, 0, 0] := by
  rw [find_coeffs, linalg_inv_eq_inv, Matrix.inv_eq_right_inv wUnit_right_inverse]
  funext j
  revert j
  with_unfolding_all decide

/-- Witness for C1 on the identity correspondence of the unit square. -/
theorem find_coeffs_round_trip_witness :
    proj_map_x (find_coeffs paUnit paUnit) (paUnit 1) = (paUnit 1).1 ∧
      proj_map_y (find_coeffs paUnit paUnit) (paUnit 1) = (paUnit 1).2 :=
  find_coeffs_round_trip paUnit paUnit
    (Matrix.isUnit_det_of_right_inverse vUnit_right_inverse)
    (by rw [find_coeffs_paUnit]; with_unfolding_all decide) 1

theorem vCex_right_inverse : coeff_matrix paCex pbCex * vCex = 1 :=
  Matrix.ext (by with_unfolding_all decide)

theorem wCex_right_inverse :
    ((coeff_matrix paCex pbCex)ᵀ * coeff_matrix paCex pbCex) * wCex = 1 :=
  Matrix.ext (by with_unfolding_all decide)

theorem find_coeffs_paCex :
    find_coeffs paCex pbCex = ![1, 0, -1, 0, 1, 0, -1, 0] := by
  rw [find_coeffs, linalg_inv_eq_inv, Matrix.inv_eq_right_inv wCex_right_inverse]
  funext j
  revert j
  with_unfolding_all decide

/-- Counterexample to C1 as stated: `paCex`/`pbCex` give a nonsingular system
with no three source corners collinear, yet the solved map's denominator is 0
at source point (1, 0), so the forward formula does not return the destination
x-coordinate 5 there. -/
theorem find_coeffs_round_trip_counterexample :
    IsUnit (coeff_matrix paCex pbCex).det ∧ no_three_collinear paCex ∧
      proj_map_x (find_coeffs paCex pbCex) (paCex 1) ≠ (pbCex 1).1 := by
  refine ⟨Matrix.isUnit_det_of_right_inverse vCex_right_inverse,
    by with_unfolding_all decide, ?_⟩
  rw [find_coeffs_paCex]
  with_unfolding_all decide

end FlipClock
